import Mathlib

/-!
Verification of the I2C userspace access module (`periphery/i2c.py`).

The Python module is shallowly embedded: the `I2C` object's mutable state is
an explicit `I2CState`, OS interaction (`os.open`, `os.close`, `fcntl.ioctl`)
is an oracle structure `OS`, and each method returns its result together with
the updated state and a trace of the allocations and syscalls it performed.
Machine integers stored into ctypes `c_ushort` fields are modelled as `Nat`
reduced modulo 2^16, matching ctypes' silent truncation on field assignment.
-/

/-- Python byte-container payloads accepted by `I2C.Message.__init__`:
`bytes`, `bytearray`, or `list` of ints.  Elements of `bytes`/`byteArray`
values are bytes (< 256) by construction in Python; a `list` may hold
arbitrary integers and is range-checked only when converted. -/
inductive PyData where
  | bytes (l : List Nat)
  | byteArray (l : List Nat)
  | intList (l : List Nat)
deriving DecidableEq, Repr

/-- The underlying element list of a payload container. -/
def PyData.list : PyData → List Nat
  | .bytes l => l
  | .byteArray l => l
  | .intList l => l

/-- The container kind of a payload (bytes / bytearray / list). -/
inductive DataKind where
  | bytes
  | byteArray
  | intList
deriving DecidableEq, Repr

/-- Which Python container type a payload value has. -/
def PyData.kind : PyData → DataKind
  | .bytes _ => DataKind.bytes
  | .byteArray _ => DataKind.byteArray
  | .intList _ => DataKind.intList

/-- Rebuild a payload of the same container kind from new element values;
mirrors the `isinstance` dispatch at the end of `I2C.transfer` (lines
131-136 of `i2c.py`: `list` keeps the list, `bytearray(data)`,
`bytes(bytearray(data))`). -/
def PyData.retype : PyData → List Nat → PyData
  | .intList _, l => .intList l
  | .byteArray _, l => .byteArray l
  | .bytes _, l => .bytes l

/-- `I2C.Message`: one message descriptor (`data`, `read`, `flags`),
as validated by `Message.__init__`. -/
structure Message where
  data : PyData
  read : Bool
  flags : Nat
deriving DecidableEq, Repr

/-- Default used for out-of-range `List.getD` reads in statements. -/
def msgDefault : Message := ⟨PyData.bytes [], false, 0⟩

/-- Python exceptions raised by the module.  `typeErr`/`valueErr` carry the
Python message; the `I2CException(errno, stage-message)` values are split by
their stage-identifying message string: opening, querying functions,
unsupported device, closing, transfer. -/
inductive PyErr where
  | typeErr (msg : String)
  | valueErr (msg : String)
  | openFail (errno : Nat)
  | queryFail (errno : Nat)
  | unsupported (devpath : String)
  | closeFail (errno : Nat)
  | xferFail (errno : Nat)
deriving DecidableEq, Repr

/-- ctypes `c_ushort` field assignment: value reduced modulo 2^16. -/
def ushort (n : Nat) : Nat := n % 65536

/-- Constants scraped from linux headers (`i2c.py` lines 25-35). -/
def I2C_IOC_FUNCS : Nat := 0x705

def I2C_IOC_RDWR : Nat := 0x707

def I2C_FUNC_I2C : Nat := 0x1

def I2C_M_TEN : Nat := 0x0010

def I2C_M_RD : Nat := 0x0001

def I2C_M_STOP : Nat := 0x8000

def I2C_M_NOSTART : Nat := 0x4000

def I2C_M_REV_DIR_ADDR : Nat := 0x2000

def I2C_M_IGNORE_NAK : Nat := 0x1000

def I2C_M_NO_RD_ACK : Nat := 0x0800

def I2C_M_RECV_LEN : Nat := 0x0400

/-- `CI2CMessage`: the kernel-ABI record (`addr`, `flags`, `len` are
`c_ushort` fields; `buf` holds the bytes of the per-record buffer created by
`ctypes.create_string_buffer(data, len(data))`). -/
structure CI2CMessage where
  addr : Nat
  flags : Nat
  len : Nat
  buf : List Nat
deriving DecidableEq, Repr

/-- Default used for out-of-range `List.getD` reads in statements. -/
def recDefault : CI2CMessage := ⟨0, 0, 0, []⟩

/-- `CI2CIocTransfer`: the kernel request object (`msgs` array and `nmsgs`
count) passed to the `I2C_IOC_RDWR` ioctl. -/
structure CI2CIocTransfer where
  msgs : List CI2CMessage
  nmsgs : Nat
deriving DecidableEq, Repr

/-- Events performed by the module: buffer allocations and syscalls.
`allocArr` is the `(CI2CMessage * len(messages))()` array allocation,
`allocBuf` one `create_string_buffer` allocation; the other events are
kernel invocations. -/
inductive Sys where
  | osOpen (path : String)
  | ioctlFuncs (fd : Nat)
  | osClose (fd : Nat)
  | ioctlRdwr (fd : Nat) (xfer : CI2CIocTransfer)
  | allocArr (n : Nat)
  | allocBuf (n : Nat)
deriving DecidableEq, Repr

/-- Whether an event is a kernel invocation (as opposed to an allocation). -/
def isSyscall : Sys → Bool
  | .allocArr _ => false
  | .allocBuf _ => false
  | _ => true

/-- Oracle for the operating system: result of `os.open`, of the
`I2C_IOC_FUNCS` ioctl (errno, or the capability bitmask written into the
caller's buffer), of `os.close` on a given fd, and of the `I2C_IOC_RDWR`
ioctl on a given fd and request (errno, or the post-call contents of every
record's buffer, written in place by the kernel as `c_ubyte`s). -/
structure OS where
  openRes : Except Nat Nat
  funcsRes : Except Nat Nat
  closeRes : Nat → Except Nat Unit
  xferRes : Nat → CI2CIocTransfer → Except Nat (List (List Nat))

/-- The `I2C` object's mutable attributes `_fd` and `_devpath`. -/
structure I2CState where
  fd : Option Nat
  devpath : Option String
deriving DecidableEq, Repr

/-- Result of `I2C.close`: raised exception or unit, the updated object
state, and the trace of events. -/
structure CloseOut where
  res : Except PyErr Unit
  state : I2CState
  trace : List Sys

/-- `I2C.close` (lines 80-89): no-op when `_fd is None`; otherwise
`os.close(self._fd)`, raising `I2CException(errno, "Closing I2C device: ...")`
on failure — note `self._fd = None` is executed only after a successful
`os.close`. -/
def I2C.close (os : OS) (s : I2CState) : CloseOut :=
  match s.fd with
  | none => ⟨.ok (), s, []⟩
  | some f =>
    match os.closeRes f with
    | .error e => ⟨.error (.closeFail e), s, [Sys.osClose f]⟩
    | .ok _ => ⟨.ok (), { s with fd := none }, [Sys.osClose f]⟩

/-- `I2C._open` (lines 58-78), as called from `__init__`: `os.open`, then
the `I2C_IOC_FUNCS` capability query, then the `I2C_FUNC_I2C` bit test; on
a query failure or a missing capability bit the just-opened descriptor is
closed via `self.close()` before the exception is raised (and an exception
from that `close` call itself propagates instead). -/
def I2C.openDev (os : OS) (devpath : String) : Except PyErr I2CState × List Sys :=
  match os.openRes with
  | .error e => (.error (.openFail e), [Sys.osOpen devpath])
  | .ok f =>
    let s : I2CState := ⟨some f, some devpath⟩
    match os.funcsRes with
    | .error e =>
      let c := I2C.close os s
      (match c.res with
       | .error ce => .error ce
       | .ok _ => .error (.queryFail e),
       Sys.osOpen devpath :: Sys.ioctlFuncs f :: c.trace)
    | .ok bm =>
      if bm &&& I2C_FUNC_I2C = 0 then
        let c := I2C.close os s
        (match c.res with
         | .error ce => .error ce
         | .ok _ => .error (.unsupported devpath),
         Sys.osOpen devpath :: Sys.ioctlFuncs f :: c.trace)
      else (.ok s, [Sys.osOpen devpath, Sys.ioctlFuncs f])

/-- Conversion of a message's payload to `bytes` (lines 103-108):
`bytes` and `bytearray` pass through; a `list` goes through
`bytes(bytearray(...))`, which raises `ValueError` unless every element is
in `range(0, 256)`. -/
def toBytesData : PyData → Except PyErr (List Nat)
  | .bytes l => .ok l
  | .byteArray l => .ok l
  | .intList l =>
    if l.all (fun x => x < 256) then .ok l
    else .error (.valueErr "byte must be in range(0, 256)")

/-- Construction of one `CI2CMessage` record (lines 110-113): `addr`,
`flags | (I2C_M_RD if read else 0)` and `len(data)` stored into `c_ushort`
fields (hence reduced mod 2^16), and a buffer holding the payload bytes. -/
def mkRec (address : Nat) (m : Message) (data : List Nat) : CI2CMessage :=
  ⟨ushort address,
   ushort (m.flags ||| (if m.read then I2C_M_RD else 0)),
   ushort data.length,
   data⟩

/-- The record list built by the conversion loop (lines 100-113); fails with
the first payload-conversion error. -/
def buildRecordsRes (address : Nat) : List Message → Except PyErr (List CI2CMessage)
  | [] => .ok []
  | m :: ms =>
    match toBytesData m.data with
    | .error e => .error e
    | .ok data =>
      match buildRecordsRes address ms with
      | .error e => .error e
      | .ok rs => .ok (mkRec address m data :: rs)

/-- The per-record buffer allocations performed by the conversion loop, in
order, up to the first payload-conversion error if any. -/
def buildAllocTrace (address : Nat) : List Message → List Sys
  | [] => []
  | m :: ms =>
    match toBytesData m.data with
    | .error _ => []
    | .ok data => Sys.allocBuf data.length :: buildAllocTrace address ms

/-- Bytes read back from record `i`'s buffer after the ioctl (line 129):
`[buf[j] for j in range(cmessages[i].len)]`; reading a `c_ubyte` always
yields a value below 256 (mod 256 of the stored value). -/
def readBack (recs : List CI2CMessage) (bufs : List (List Nat)) (i : Nat) : List Nat :=
  ((bufs.getD i (recs.getD i recDefault).buf).take (recs.getD i recDefault).len).map
    (fun x => x % 256)

/-- The body of the read-update loop (lines 127-136) for the message at
index `i`: a read message's payload is replaced, keeping its container
kind; a write message is untouched. -/
def applyRead (recs : List CI2CMessage) (bufs : List (List Nat)) (i : Nat) (m : Message) : Message :=
  if m.read then { m with data := m.data.retype (readBack recs bufs i) } else m

/-- The read-update loop over all messages, mirroring
`for i in range(len(messages))`. -/
def updateMsgs (recs : List CI2CMessage) (bufs : List (List Nat)) :
    List Message → Nat → List Message
  | [], _ => []
  | m :: ms, i => applyRead recs bufs i m :: updateMsgs recs bufs ms (i + 1)

/-- Result of `I2C.transfer`: raised exception or unit, the caller's message
list after the call (read payloads are mutated in place in the source), and
the trace of allocations and syscalls. -/
structure TransferOut where
  res : Except PyErr Unit
  messages : List Message
  trace : List Sys

/-- `I2C.transfer` (lines 93-136).  The empty-list check precedes every
allocation; the record array and per-record buffers are then built; the
`I2C_IOC_RDWR` ioctl is issued on `self._fd` (when `_fd is None`, i.e. the
handle was closed, `fcntl.ioctl(None, ...)` raises `TypeError` before any
syscall); on ioctl failure `I2CException(errno, "I2C transfer: ...")` is
raised before the update loop, leaving every payload untouched; on success
read payloads are replaced from the kernel-filled buffers.
(The `isinstance(messages, list)` check is enforced here by the Lean type
of `messages`.) -/
def I2C.transfer (os : OS) (s : I2CState) (address : Nat) (messages : List Message) :
    TransferOut :=
  if messages.length = 0 then
    ⟨.error (.valueErr "Invalid messages data, should be non-zero length."), messages, []⟩
  else
    match buildRecordsRes address messages with
    | .error e =>
      ⟨.error e, messages, Sys.allocArr messages.length :: buildAllocTrace address messages⟩
    | .ok recs =>
      let xfer : CI2CIocTransfer := ⟨recs, messages.length⟩
      match s.fd with
      | none =>
        ⟨.error (.typeErr "an integer is required"), messages,
         Sys.allocArr messages.length :: buildAllocTrace address messages⟩
      | some f =>
        match os.xferRes f xfer with
        | .error e =>
          ⟨.error (.xferFail e), messages,
           (Sys.allocArr messages.length :: buildAllocTrace address messages)
             ++ [Sys.ioctlRdwr f xfer]⟩
        | .ok bufs =>
          ⟨.ok (), updateMsgs recs bufs messages 0,
           (Sys.allocArr messages.length :: buildAllocTrace address messages)
             ++ [Sys.ioctlRdwr f xfer]⟩

/-- Whether a transfer result is a raised exception. -/
def isErr : Except PyErr Unit → Bool
  | .error _ => true
  | .ok _ => false

/-! ### Helper lemmas about the embedded operations -/

theorem toBytesData_ok (d : PyData) (l : List Nat) (h : toBytesData d = .ok l) :
    l = d.list := by
  cases d with
  | bytes l2 => simp [toBytesData] at h; simp [PyData.list, h]
  | byteArray l2 => simp [toBytesData] at h; simp [PyData.list, h]
  | intList l2 =>
    simp only [toBytesData] at h
    split at h
    · simp at h; simp [PyData.list, h]
    · simp at h

theorem buildRecordsRes_ok (address : Nat) :
    ∀ (msgs : List Message) (recs : List CI2CMessage),
      buildRecordsRes address msgs = .ok recs →
      recs.length = msgs.length ∧
      ∀ i, i < msgs.length →
        recs.getD i recDefault =
          mkRec address (msgs.getD i msgDefault) (msgs.getD i msgDefault).data.list := by
  intro msgs
  induction msgs with
  | nil =>
    intro recs h
    simp [buildRecordsRes] at h
    subst h
    exact ⟨rfl, fun i hi => absurd hi (by simp)⟩
  | cons m ms ih =>
    intro recs h
    simp only [buildRecordsRes] at h
    cases hd : toBytesData m.data with
    | error e => rw [hd] at h; simp at h
    | ok data =>
      rw [hd] at h
      cases hb : buildRecordsRes address ms with
      | error e => rw [hb] at h; simp at h
      | ok rs =>
        rw [hb] at h
        simp only [Except.ok.injEq] at h
        subst h
        obtain ⟨hlen, hget⟩ := ih rs hb
        refine ⟨by simp [hlen], ?_⟩
        intro i hi
        cases i with
        | zero =>
          have hdata := toBytesData_ok m.data data hd
          subst hdata
          rfl
        | succ j =>
          have hj : j < ms.length := by simpa using hi
          simpa using hget j hj

theorem updateMsgs_length (recs : List CI2CMessage) (bufs : List (List Nat)) :
    ∀ (msgs : List Message) (i0 : Nat),
      (updateMsgs recs bufs msgs i0).length = msgs.length := by
  intro msgs
  induction msgs with
  | nil => intro i0; rfl
  | cons m ms ih => intro i0; simp [updateMsgs, ih]

theorem updateMsgs_getD (recs : List CI2CMessage) (bufs : List (List Nat)) :
    ∀ (msgs : List Message) (i0 j : Nat), j < msgs.length →
      (updateMsgs recs bufs msgs i0).getD j msgDefault =
        applyRead recs bufs (i0 + j) (msgs.getD j msgDefault) := by
  intro msgs
  induction msgs with
  | nil => intro i0 j hj; simp at hj
  | cons m ms ih =>
    intro i0 j hj
    cases j with
    | zero => rfl
    | succ j =>
      have hj2 : j < ms.length := by simpa using hj
      calc (updateMsgs recs bufs (m :: ms) i0).getD (j + 1) msgDefault
          = (updateMsgs recs bufs ms (i0 + 1)).getD j msgDefault := rfl
        _ = applyRead recs bufs ((i0 + 1) + j) (ms.getD j msgDefault) := ih (i0 + 1) j hj2
        _ = applyRead recs bufs (i0 + (j + 1)) ((m :: ms).getD (j + 1) msgDefault) := by
              rw [show (i0 + 1) + j = i0 + (j + 1) by omega]
              rfl

theorem buildAllocTrace_noSyscall (address : Nat) :
    ∀ (msgs : List Message), ∀ ev ∈ buildAllocTrace address msgs, isSyscall ev = false := by
  intro msgs
  induction msgs with
  | nil => intro ev hev; simp [buildAllocTrace] at hev
  | cons m ms ih =>
    intro ev hev
    simp only [buildAllocTrace] at hev
    cases hd : toBytesData m.data with
    | error e => rw [hd] at hev; simp at hev
    | ok data =>
      rw [hd] at hev
      simp only [List.mem_cons] at hev
      rcases hev with h | h
      · subst h; rfl
      · exact ih ev h

theorem transfer_ok_eq (os : OS) (s : I2CState) (f address : Nat)
    (messages : List Message) (recs : List CI2CMessage) (bufs : List (List Nat))
    (hfd : s.fd = some f) (hne : messages.length ≠ 0)
    (hbuild : buildRecordsRes address messages = .ok recs)
    (hx : os.xferRes f ⟨recs, messages.length⟩ = .ok bufs) :
    I2C.transfer os s address messages =
      ⟨.ok (), updateMsgs recs bufs messages 0,
       (Sys.allocArr messages.length :: buildAllocTrace address messages)
         ++ [Sys.ioctlRdwr f ⟨recs, messages.length⟩]⟩ := by
  unfold I2C.transfer
  rw [if_neg hne]
  simp only [hbuild, hfd, hx]

theorem transfer_err_eq (os : OS) (s : I2CState) (f address e : Nat)
    (messages : List Message) (recs : List CI2CMessage)
    (hfd : s.fd = some f) (hne : messages.length ≠ 0)
    (hbuild : buildRecordsRes address messages = .ok recs)
    (hx : os.xferRes f ⟨recs, messages.length⟩ = .error e) :
    I2C.transfer os s address messages =
      ⟨.error (.xferFail e), messages,
       (Sys.allocArr messages.length :: buildAllocTrace address messages)
         ++ [Sys.ioctlRdwr f ⟨recs, messages.length⟩]⟩ := by
  unfold I2C.transfer
  rw [if_neg hne]
  simp only [hbuild, hfd, hx]

theorem transfer_closed (os : OS) (s : I2CState) (address : Nat)
    (messages : List Message) (hfd : s.fd = none) :
    isErr (I2C.transfer os s address messages).res = true ∧
    ∀ ev ∈ (I2C.transfer os s address messages).trace, isSyscall ev = false := by
  unfold I2C.transfer
  rw [hfd]
  split
  · exact ⟨rfl, by intro ev hev; simp at hev⟩
  · split
    · refine ⟨rfl, ?_⟩
      intro ev hev
      simp only [List.mem_cons] at hev
      rcases hev with h | h
      · subst h; rfl
      · exact buildAllocTrace_noSyscall address messages ev h
    · refine ⟨rfl, ?_⟩
      intro ev hev
      simp only [List.mem_cons] at hev
      rcases hev with h | h
      · subst h; rfl
      · exact buildAllocTrace_noSyscall address messages ev h

theorem retype_kind (d : PyData) (l : List Nat) : (d.retype l).kind = d.kind := by
  cases d <;> rfl

theorem readBit_ushort_lor (fl : Nat) (b : Bool) :
    (ushort (fl ||| (if b then I2C_M_RD else 0)) &&& I2C_M_RD ≠ 0) ↔
      (b = true ∨ fl &&& I2C_M_RD ≠ 0) := by
  have h2 : (2 : ℕ) ∣ 65536 := by norm_num
  have hmod : ∀ x : Nat, ushort x &&& I2C_M_RD = x % 2 := by
    intro x
    show x % 65536 &&& 1 = x % 2
    rw [Nat.and_one_is_mod, Nat.mod_mod_of_dvd x h2]
  have hfl : fl &&& I2C_M_RD = fl % 2 := Nat.and_one_is_mod fl
  cases b with
  | false =>
    rw [if_neg (by simp), Nat.or_zero, hmod, hfl]
    simp
  | true =>
    rw [if_pos rfl, hmod]
    have h1 : (fl ||| I2C_M_RD) % 2 = 1 := by
      show (fl ||| 1) % 2 = 1
      simp [Nat.lor_comm]
    rw [h1]
    simp

/-! ### Concrete oracles for witnesses and counterexamples -/

/-- An OS where every syscall succeeds; the transfer ioctl returns no data. -/
def osOk : OS := ⟨.ok 3, .ok 1, fun _ => .ok (), fun _ _ => .ok []⟩

/-- An OS whose `os.close` fails with errno 9 (EBADF). -/
def osCloseFail : OS := ⟨.ok 3, .ok 1, fun _ => .error 9, fun _ _ => .ok []⟩

/-- An OS whose capability-query ioctl fails with errno 5 (EIO). -/
def osQueryFail : OS := ⟨.ok 3, .error 5, fun _ => .ok (), fun _ _ => .ok []⟩

/-- An OS reporting a capability bitmask without the `I2C_FUNC_I2C` bit. -/
def osNoFunc : OS := ⟨.ok 4, .ok 0x2, fun _ => .ok (), fun _ _ => .ok []⟩

/-- An OS whose transfer ioctl fails with errno 121 (EREMOTEIO). -/
def osXferFail : OS := ⟨.ok 3, .ok 1, fun _ => .ok (), fun _ _ => .error 121⟩

/-- A state holding an open descriptor 3 on /dev/i2c-0. -/
def sOpen : I2CState := ⟨some 3, some "/dev/i2c-0"⟩

/-! ### Claims -/

/-- C4: a `transfer` call with an empty message list fails with `ValueError`
(the spec's `InvalidArgumentError`), leaves the caller's list untouched, and
produces an empty event trace: no per-call buffer is allocated and no
syscall is issued (zero kernel invocations), for every OS oracle, handle
state and address. -/
theorem C4_empty_messages_rejected_before_work (os : OS) (s : I2CState) (address : Nat) :
    I2C.transfer os s address [] =
      ⟨.error (.valueErr "Invalid messages data, should be non-zero length."), [], []⟩ := rfl

/-- C2 (amended): if the underlying release syscall fails on the first
`close`, `close` fails with a close error carrying the OS errno, but the
handle is NOT marked released (`_fd` is unchanged, since `self._fd = None`
is only reached after a successful `os.close`), so a subsequent `close`
attempts the release syscall a second time. -/
theorem C2_close_fail_keeps_fd (os : OS) (s : I2CState) (f e : Nat)
    (hfd : s.fd = some f) (hclose : os.closeRes f = .error e) :
    I2C.close os s = ⟨.error (.closeFail e), s, [Sys.osClose f]⟩ ∧
    (I2C.close os ((I2C.close os s).state)).trace = [Sys.osClose f] := by
  have h1 : I2C.close os s = ⟨.error (.closeFail e), s, [Sys.osClose f]⟩ := by
    unfold I2C.close
    simp only [hfd, hclose]
  refine ⟨h1, ?_⟩
  simp only [h1]

/-- C2 counterexample: with descriptor 3 open and `os.close` failing with
errno 9, `close` raises the close error, yet the handle still holds
descriptor 3 (it is not marked released), and a second `close` issues the
release syscall again — contradicting the claim that the handle is marked
released and the syscall is not reattempted. -/
theorem C2_counterexample :
    (I2C.close osCloseFail sOpen).res = .error (.closeFail 9) ∧
    ¬(I2C.close osCloseFail sOpen).state.fd = none ∧
    ¬(I2C.close osCloseFail ((I2C.close osCloseFail sOpen).state)).trace = [] := by
  refine ⟨rfl, by decide, by decide⟩

/-- C2 witness: the amended theorem evaluated at descriptor 3 with
errno 9. -/
theorem C2_witness :
    I2C.close osCloseFail sOpen = ⟨.error (.closeFail 9), sOpen, [Sys.osClose 3]⟩ ∧
    (I2C.close osCloseFail ((I2C.close osCloseFail sOpen).state)).trace = [Sys.osClose 3] :=
  C2_close_fail_keeps_fd osCloseFail sOpen 3 9 rfl rfl

/-- C9: after a successful first `close` the descriptor is released and the
handle cleared; a second `close` observes `_fd is None`, performs no
syscall, raises nothing and leaves the state unchanged, so close followed
by close is observationally equal to a single close. -/
theorem C9_close_idempotent (os : OS) (s : I2CState) (f : Nat)
    (hfd : s.fd = some f) (hclose : os.closeRes f = .ok ()) :
    I2C.close os s = ⟨.ok (), ⟨none, s.devpath⟩, [Sys.osClose f]⟩ ∧
    I2C.close os ((I2C.close os s).state) = ⟨.ok (), (I2C.close os s).state, []⟩ := by
  have h1 : I2C.close os s = ⟨.ok (), ⟨none, s.devpath⟩, [Sys.osClose f]⟩ := by
    unfold I2C.close
    simp only [hfd, hclose]
  refine ⟨h1, ?_⟩
  simp only [h1]
  rfl

/-- C9 witness: closing descriptor 3 succeeds, and a second close is a
no-op with an empty trace. -/
theorem C9_witness :
    I2C.close osOk sOpen = ⟨.ok (), ⟨none, sOpen.devpath⟩, [Sys.osClose 3]⟩ ∧
    I2C.close osOk ((I2C.close osOk sOpen).state) = ⟨.ok (), (I2C.close osOk sOpen).state, []⟩ :=
  C9_close_idempotent osOk sOpen 3 rfl rfl

/-- C8: once a handle has been successfully closed it is unusable: its `_fd`
is `None`, and every subsequent `transfer` on it fails with an error
(`TypeError` from `fcntl.ioctl(None, ...)`, or an earlier validation error)
while performing zero syscalls — it neither silently no-ops nor issues a
syscall on a stale descriptor. -/
theorem C8_closed_handle_unusable (os : OS) (s : I2CState) (f : Nat)
    (hfd : s.fd = some f) (hclose : os.closeRes f = .ok ()) :
    (I2C.close os s).state.fd = none ∧
    ∀ (address : Nat) (messages : List Message),
      isErr (I2C.transfer os ((I2C.close os s).state) address messages).res = true ∧
      ∀ ev ∈ (I2C.transfer os ((I2C.close os s).state) address messages).trace,
        isSyscall ev = false := by
  have h1 : (I2C.close os s).state = ⟨none, s.devpath⟩ := by
    unfold I2C.close
    simp only [hfd, hclose]
  refine ⟨by rw [h1], ?_⟩
  intro address messages
  exact transfer_closed os ((I2C.close os s).state) address messages (by rw [h1])

/-- C8 witness: after closing descriptor 3, a transfer of one valid write
message fails and performs no syscall. -/
theorem C8_witness :
    isErr (I2C.transfer osOk ((I2C.close osOk sOpen).state) 0x50
      [⟨PyData.bytes [0x10], false, 0⟩]).res = true ∧
    ∀ ev ∈ (I2C.transfer osOk ((I2C.close osOk sOpen).state) 0x50
      [⟨PyData.bytes [0x10], false, 0⟩]).trace, isSyscall ev = false :=
  (C8_closed_handle_unusable osOk sOpen 3 rfl rfl).2 0x50 [⟨PyData.bytes [0x10], false, 0⟩]

/-- C5: on every construction failure after the device node was opened —
the capability-query ioctl failing with errno `e`, or the returned bitmask
lacking the `I2C_FUNC_I2C` bit — the just-opened descriptor `f` is released
(trace ends with `osClose f`, before the error is returned) and the raised
error is the query error carrying the errno, respectively the unsupported
error naming the device path; no descriptor leak occurs. -/
theorem C5_open_failure_releases_fd (os : OS) (devpath : String) (f : Nat)
    (hopen : os.openRes = .ok f) (hclose : os.closeRes f = .ok ()) :
    (∀ e, os.funcsRes = .error e →
      I2C.openDev os devpath =
        (.error (.queryFail e),
         [Sys.osOpen devpath, Sys.ioctlFuncs f, Sys.osClose f])) ∧
    (∀ bm, os.funcsRes = .ok bm → bm &&& I2C_FUNC_I2C = 0 →
      I2C.openDev os devpath =
        (.error (.unsupported devpath),
         [Sys.osOpen devpath, Sys.ioctlFuncs f, Sys.osClose f])) := by
  have hc : I2C.close os ⟨some f, some devpath⟩
      = ⟨.ok (), ⟨none, some devpath⟩, [Sys.osClose f]⟩ := by
    unfold I2C.close
    simp only [hclose]
  constructor
  · intro e he
    unfold I2C.openDev
    simp only [hopen, he, hc]
  · intro bm hbm hbit
    unfold I2C.openDev
    simp only [hopen, hbm, hc]
    rw [if_pos hbit]

/-- C5 witness: a failing capability query (errno 5) on descriptor 3, and a
bitmask `0x2` lacking `I2C_FUNC_I2C` on descriptor 4, both release the
descriptor before raising. -/
theorem C5_witness :
    I2C.openDev osQueryFail "/dev/i2c-1" =
      (.error (.queryFail 5),
       [Sys.osOpen "/dev/i2c-1", Sys.ioctlFuncs 3, Sys.osClose 3]) ∧
    I2C.openDev osNoFunc "/dev/i2c-2" =
      (.error (.unsupported "/dev/i2c-2"),
       [Sys.osOpen "/dev/i2c-2", Sys.ioctlFuncs 4, Sys.osClose 4]) :=
  ⟨(C5_open_failure_releases_fd osQueryFail "/dev/i2c-1" 3 rfl rfl).1 5 rfl,
   (C5_open_failure_releases_fd osNoFunc "/dev/i2c-2" 4 rfl rfl).2 2 rfl (by decide)⟩

/-- C7: when the block-transfer ioctl fails with errno `e`, `transfer`
fails with the transfer error carrying that errno and the caller's message
list is exactly as before the call — no copy-back is performed on the error
path, so in particular every write descriptor's payload is unchanged. -/
theorem C7_transfer_fail_preserves_payloads (os : OS) (s : I2CState) (f address e : Nat)
    (messages : List Message) (recs : List CI2CMessage)
    (hfd : s.fd = some f) (hne : messages.length ≠ 0)
    (hbuild : buildRecordsRes address messages = .ok recs)
    (hx : os.xferRes f ⟨recs, messages.length⟩ = .error e) :
    (I2C.transfer os s address messages).res = .error (.xferFail e) ∧
    (I2C.transfer os s address messages).messages = messages := by
  have ht := transfer_err_eq os s f address e messages recs hfd hne hbuild hx
  rw [ht]
  exact ⟨rfl, rfl⟩

/-- C7 witness: a one-message write batch whose ioctl fails with errno 121
raises the transfer error and leaves the payload untouched. -/
theorem C7_witness :
    (I2C.transfer osXferFail sOpen 0x50 [⟨PyData.bytes [0x10], false, 0⟩]).res
      = .error (.xferFail 121) ∧
    (I2C.transfer osXferFail sOpen 0x50 [⟨PyData.bytes [0x10], false, 0⟩]).messages
      = [⟨PyData.bytes [0x10], false, 0⟩] :=
  C7_transfer_fail_preserves_payloads osXferFail sOpen 3 0x50 121
    [⟨PyData.bytes [0x10], false, 0⟩] [⟨0x50, 0, 1, [0x10]⟩] rfl (by decide) rfl rfl

/-- C1 (amended): for every transfer call whose record construction
succeeds, with the address and every payload length representable in 16
bits, the constructed kernel-facing request has record count equal to the
number of descriptors, every record's address field equals the single
address argument, every record's length field equals that descriptor's
payload length, and every record's flags read-bit is set if and only if
the descriptor's `read` is true OR the descriptor's own flags bitmask
already contains the read bit (the source computes
`flags | (I2C_M_RD if read else 0)`, so a caller-supplied read bit in
`extraFlags` survives for write descriptors). -/
theorem C1_request_construction (address : Nat) (messages : List Message)
    (recs : List CI2CMessage)
    (hbuild : buildRecordsRes address messages = .ok recs)
    (haddr : address < 65536)
    (hlen : ∀ i, i < messages.length →
      (messages.getD i msgDefault).data.list.length < 65536) :
    recs.length = messages.length ∧
    ∀ i, i < messages.length →
      (recs.getD i recDefault).addr = address ∧
      (recs.getD i recDefault).len = (messages.getD i msgDefault).data.list.length ∧
      ((recs.getD i recDefault).flags &&& I2C_M_RD ≠ 0 ↔
        ((messages.getD i msgDefault).read = true ∨
         (messages.getD i msgDefault).flags &&& I2C_M_RD ≠ 0)) := by
  obtain ⟨hl, hg⟩ := buildRecordsRes_ok address messages recs hbuild
  refine ⟨hl, ?_⟩
  intro i hi
  rw [hg i hi]
  exact ⟨Nat.mod_eq_of_lt haddr, Nat.mod_eq_of_lt (hlen i hi),
    readBit_ushort_lor (messages.getD i msgDefault).flags (messages.getD i msgDefault).read⟩

/-- C1 counterexample: a transfer of a single WRITE descriptor whose
`extraFlags` already contains the read bit constructs a request whose only
record has the flags read-bit set although `read` is false — refuting the
claimed "read-bit set if and only if isRead" even-when-extraFlags-has-it
reading. -/
theorem C1_counterexample :
    buildRecordsRes 0x50 [⟨PyData.bytes [0x10], false, I2C_M_RD⟩]
      = .ok [⟨0x50, I2C_M_RD, 1, [0x10]⟩] ∧
    (I2C.transfer osOk sOpen 0x50 [⟨PyData.bytes [0x10], false, I2C_M_RD⟩]).trace
      = [Sys.allocArr 1, Sys.allocBuf 1,
         Sys.ioctlRdwr 3 ⟨[⟨0x50, I2C_M_RD, 1, [0x10]⟩], 1⟩] ∧
    (⟨PyData.bytes [0x10], false, I2C_M_RD⟩ : Message).read = false ∧
    ((⟨0x50, I2C_M_RD, 1, [0x10]⟩ : CI2CMessage).flags &&& I2C_M_RD ≠ 0) := by
  refine ⟨rfl, rfl, rfl, by decide⟩

/-- The write-then-read descriptor pair of the spec's example scenario. -/
def msgsW : List Message :=
  [⟨PyData.bytes [0x10], false, 0⟩, ⟨PyData.intList [0, 0], true, 0⟩]

/-- The kernel-facing records built for `msgsW` at address 0x50. -/
def recsW : List CI2CMessage := [⟨0x50, 0, 1, [0x10]⟩, ⟨0x50, 1, 2, [0, 0]⟩]

/-- C1 witness: the amended theorem evaluated on the two-descriptor example
batch at address 0x50. -/
theorem C1_witness :
    recsW.length = msgsW.length ∧
    ∀ i, i < msgsW.length →
      (recsW.getD i recDefault).addr = 0x50 ∧
      (recsW.getD i recDefault).len = (msgsW.getD i msgDefault).data.list.length ∧
      ((recsW.getD i recDefault).flags &&& I2C_M_RD ≠ 0 ↔
        ((msgsW.getD i msgDefault).read = true ∨
         (msgsW.getD i msgDefault).flags &&& I2C_M_RD ≠ 0)) :=
  C1_request_construction 0x50 msgsW recsW rfl (by decide) (by decide)

/-- A write message whose payload has 65536 bytes, one more than fits the
16-bit ABI length field. -/
def bigMsg : Message := ⟨PyData.bytes (List.replicate 65536 7), false, 0⟩

/-- Building the request for `bigMsg` succeeds and stores length field 0:
65536 is silently truncated modulo 2^16 by the `c_ushort` assignment. -/
theorem bigMsg_build :
    buildRecordsRes 0x50 [bigMsg] = .ok [⟨0x50, 0, 0, List.replicate 65536 7⟩] := by
  have hlen : ushort (List.replicate 65536 7).length = 0 := by
    rw [List.length_replicate]
    rfl
  show Except.ok [(⟨ushort 0x50,
      ushort (bigMsg.flags ||| (if bigMsg.read then I2C_M_RD else 0)),
      ushort (List.replicate 65536 7).length, List.replicate 65536 7⟩ : CI2CMessage)]
    = Except.ok [(⟨0x50, 0, 0, List.replicate 65536 7⟩ : CI2CMessage)]
  rw [hlen]
  rfl

/-- C3 counterexample: a transfer whose descriptor has a 65536-byte payload
does NOT fail with any validation error: the request is built with its
length field silently truncated to 0 and the call succeeds. -/
theorem C3_counterexample :
    buildRecordsRes 0x50 [bigMsg] = .ok [⟨0x50, 0, 0, List.replicate 65536 7⟩] ∧
    (I2C.transfer osOk sOpen 0x50 [bigMsg]).res = .ok () := by
  refine ⟨bigMsg_build, ?_⟩
  have ht := transfer_ok_eq osOk sOpen 3 0x50 [bigMsg]
    [⟨0x50, 0, 0, List.replicate 65536 7⟩] [] rfl (by simp) bigMsg_build rfl
  rw [ht]

/-- C3 (amended): payload lengths are never validated against the 16-bit
ABI length field; for every successfully built request, each record's
length field equals the payload length reduced modulo 2^16 (so an
oversized payload is silently truncated rather than rejected with
`InvalidArgumentError`). -/
theorem C3_len_truncated (address : Nat) (messages : List Message)
    (recs : List CI2CMessage)
    (hbuild : buildRecordsRes address messages = .ok recs) :
    ∀ i, i < messages.length →
      (recs.getD i recDefault).len
        = (messages.getD i msgDefault).data.list.length % 65536 := by
  obtain ⟨hl, hg⟩ := buildRecordsRes_ok address messages recs hbuild
  intro i hi
  rw [hg i hi]
  rfl

/-- C3 witness: the 65536-byte payload's record carries length field
65536 % 2^16 = 0. -/
theorem C3_witness :
    (([⟨0x50, 0, 0, List.replicate 65536 7⟩] : List CI2CMessage).getD 0 recDefault).len
      = (([bigMsg] : List Message).getD 0 msgDefault).data.list.length % 65536 :=
  C3_len_truncated 0x50 [bigMsg] [⟨0x50, 0, 0, List.replicate 65536 7⟩] bigMsg_build 0
    (by decide)

/-- C6: for every successful transfer (ioctl returns the post-call buffer
contents `bufs`, one buffer per record, each of the requested length and
holding byte values), every read descriptor's payload is replaced — in its
own container kind — by the bytes the kernel returned for that record (the
full requested length), and every write descriptor is left exactly as the
caller provided it. -/
theorem C6_read_copyback (os : OS) (s : I2CState) (f address : Nat)
    (messages : List Message) (recs : List CI2CMessage) (bufs : List (List Nat))
    (hfd : s.fd = some f) (hne : messages.length ≠ 0)
    (hbuild : buildRecordsRes address messages = .ok recs)
    (hx : os.xferRes f ⟨recs, messages.length⟩ = .ok bufs)
    (hbl : bufs.length = messages.length)
    (hprops : ∀ i, i < messages.length →
      (messages.getD i msgDefault).data.list.length < 65536 ∧
      (bufs.getD i []).length = (messages.getD i msgDefault).data.list.length ∧
      ∀ x ∈ bufs.getD i [], x < 256) :
    (I2C.transfer os s address messages).res = .ok () ∧
    (I2C.transfer os s address messages).messages.length = messages.length ∧
    ∀ i, i < messages.length →
      ((messages.getD i msgDefault).read = true →
        ((I2C.transfer os s address messages).messages.getD i msgDefault).data
          = (messages.getD i msgDefault).data.retype (bufs.getD i [])) ∧
      ((messages.getD i msgDefault).read = false →
        (I2C.transfer os s address messages).messages.getD i msgDefault
          = messages.getD i msgDefault) := by
  have ht := transfer_ok_eq os s f address messages recs bufs hfd hne hbuild hx
  have hres : (I2C.transfer os s address messages).res = .ok () := by rw [ht]
  have hmsgs : (I2C.transfer os s address messages).messages
      = updateMsgs recs bufs messages 0 := by rw [ht]
  obtain ⟨hrl, hrg⟩ := buildRecordsRes_ok address messages recs hbuild
  refine ⟨hres, ?_, ?_⟩
  · rw [hmsgs]
    exact updateMsgs_length recs bufs messages 0
  · intro i hi
    have hu := updateMsgs_getD recs bufs messages 0 i hi
    rw [Nat.zero_add] at hu
    obtain ⟨hsm, hlen, hbyte⟩ := hprops i hi
    have hread : readBack recs bufs i = bufs.getD i [] := by
      unfold readBack
      rw [hrg i hi]
      have hib : i < bufs.length := by rw [hbl]; exact hi
      have hswitch : bufs.getD i (mkRec address (messages.getD i msgDefault)
          (messages.getD i msgDefault).data.list).buf = bufs.getD i [] := by
        rw [List.getD_eq_getElem bufs _ hib, List.getD_eq_getElem bufs _ hib]
      have hL : (mkRec address (messages.getD i msgDefault)
          (messages.getD i msgDefault).data.list).len
          = (bufs.getD i []).length := by
        rw [hlen]
        exact Nat.mod_eq_of_lt hsm
      rw [hswitch, hL, List.take_length]
      have hmap := List.map_congr_left
        (l := bufs.getD i []) (f := fun x => x % 256) (g := fun x => x)
        (fun x hx2 => Nat.mod_eq_of_lt (hbyte x hx2))
      rw [hmap]
      exact List.map_id' (bufs.getD i [])
    refine ⟨?_, ?_⟩
    · intro hr
      rw [hmsgs, hu]
      unfold applyRead
      rw [hr, if_pos rfl, hread]
    · intro hr
      rw [hmsgs, hu]
      unfold applyRead
      rw [hr, if_neg (by decide)]

/-- The OS oracle for the spec's example scenario: the transfer ioctl
succeeds and leaves `[0x10]` in record 0's buffer and fills record 1's
buffer with `[0xAB, 0xCD]`. -/
def os6 : OS := ⟨.ok 3, .ok 1, fun _ => .ok (), fun _ _ => .ok [[0x10], [0xAB, 0xCD]]⟩

/-- The post-call buffer contents of the example scenario. -/
def bufs6 : List (List Nat) := [[0x10], [0xAB, 0xCD]]

/-- C6 witness: the spec's example — descriptors
`[(payload [0x10], write), (payload [0, 0], read)]` at address 0x50 with
the kernel returning `[0xAB, 0xCD]` for record 1: the call succeeds, the
read descriptor's payload becomes `[0xAB, 0xCD]` (same container kind) and
the write descriptor is untouched. -/
theorem C6_witness :
    (I2C.transfer os6 sOpen 0x50 msgsW).res = .ok () ∧
    (I2C.transfer os6 sOpen 0x50 msgsW).messages.length = msgsW.length ∧
    ∀ i, i < msgsW.length →
      ((msgsW.getD i msgDefault).read = true →
        ((I2C.transfer os6 sOpen 0x50 msgsW).messages.getD i msgDefault).data
          = (msgsW.getD i msgDefault).data.retype (bufs6.getD i [])) ∧
      ((msgsW.getD i msgDefault).read = false →
        (I2C.transfer os6 sOpen 0x50 msgsW).messages.getD i msgDefault
          = msgsW.getD i msgDefault) :=
  C6_read_copyback os6 sOpen 3 0x50 msgsW recsW bufs6 rfl (by decide) rfl rfl rfl
    (by decide)

/-- C10: after a successful transfer, every read descriptor's payload holds
the kernel-returned byte values in a container of the same kind as before
the call (`bytes` stays `bytes`, `bytearray` stays `bytearray`, `list`
stays `list`), and in general every descriptor's container kind is
preserved. -/
theorem C10_container_kind_preserved (os : OS) (s : I2CState) (f address : Nat)
    (messages : List Message) (recs : List CI2CMessage) (bufs : List (List Nat))
    (hfd : s.fd = some f) (hne : messages.length ≠ 0)
    (hbuild : buildRecordsRes address messages = .ok recs)
    (hx : os.xferRes f ⟨recs, messages.length⟩ = .ok bufs) :
    (I2C.transfer os s address messages).res = .ok () ∧
    (I2C.transfer os s address messages).messages.length = messages.length ∧
    ∀ i, i < messages.length →
      ((I2C.transfer os s address messages).messages.getD i msgDefault).data.kind
        = (messages.getD i msgDefault).data.kind ∧
      ((messages.getD i msgDefault).read = true →
        ((I2C.transfer os s address messages).messages.getD i msgDefault).data
          = (messages.getD i msgDefault).data.retype (readBack recs bufs i)) := by
  have ht := transfer_ok_eq os s f address messages recs bufs hfd hne hbuild hx
  have hres : (I2C.transfer os s address messages).res = .ok () := by rw [ht]
  have hmsgs : (I2C.transfer os s address messages).messages
      = updateMsgs recs bufs messages 0 := by rw [ht]
  refine ⟨hres, ?_, ?_⟩
  · rw [hmsgs]
    exact updateMsgs_length recs bufs messages 0
  · intro i hi
    have hu := updateMsgs_getD recs bufs messages 0 i hi
    rw [Nat.zero_add] at hu
    refine ⟨?_, ?_⟩
    · rw [hmsgs, hu]
      unfold applyRead
      cases hr : (messages.getD i msgDefault).read with
      | false => rw [if_neg (by decide)]
      | true =>
        rw [if_pos rfl]
        exact retype_kind (messages.getD i msgDefault).data (readBack recs bufs i)
    · intro hr
      rw [hmsgs, hu]
      unfold applyRead
      rw [hr, if_pos rfl]

/-- The three-container read/write batch used to witness C10. -/
def msgs10 : List Message :=
  [⟨PyData.bytes [0], true, 0⟩, ⟨PyData.byteArray [0, 0], true, 0⟩,
   ⟨PyData.intList [7], false, 0⟩]

/-- The kernel-facing records built for `msgs10` at address 0x21. -/
def recs10 : List CI2CMessage :=
  [⟨0x21, 1, 1, [0]⟩, ⟨0x21, 1, 2, [0, 0]⟩, ⟨0x21, 0, 1, [7]⟩]

/-- Post-call buffers for the `msgs10` batch. -/
def bufs10 : List (List Nat) := [[1], [2, 3], [7]]

/-- The OS oracle for the `msgs10` batch: the transfer ioctl fills the two
read buffers with `[1]` and `[2, 3]` and leaves the write buffer alone. -/
def os10 : OS := ⟨.ok 3, .ok 1, fun _ => .ok (), fun _ _ => .ok [[1], [2, 3], [7]]⟩

/-- C10 witness: a batch with one `bytes` read, one `bytearray` read and
one `list` write keeps each payload's container kind across a successful
transfer, the read payloads holding the kernel-returned bytes. -/
theorem C10_witness :
    (I2C.transfer os10 sOpen 0x21 msgs10).res = .ok () ∧
    (I2C.transfer os10 sOpen 0x21 msgs10).messages.length = msgs10.length ∧
    ∀ i, i < msgs10.length →
      ((I2C.transfer os10 sOpen 0x21 msgs10).messages.getD i msgDefault).data.kind
        = (msgs10.getD i msgDefault).data.kind ∧
      ((msgs10.getD i msgDefault).read = true →
        ((I2C.transfer os10 sOpen 0x21 msgs10).messages.getD i msgDefault).data
          = (msgs10.getD i msgDefault).data.retype (readBack recs10 bufs10 i)) :=
  C10_container_kind_preserved os10 sOpen 3 0x21 msgs10 recs10 bufs10 rfl (by decide)
    rfl rfl
